/-
  Verification of the snakeoil TORCS client (snakeoil.PY).

  Shallow embedding of the core of the program: the telemetry decoder
  (`ServerState.parse_server_str` with `destringify`), and the per-tick
  control loop (`drive_example` with `clutching` and `get_gear`).

  Modelling conventions:
  * Python floats are modelled as exact rationals (ℚ); decimal literals of
    the source become the corresponding rationals.
  * `math.sin` and the two `PID.PI_CONTROLLER` instances are external
    collaborators (the PID module is not part of this repository and the
    spec treats it as a black box); they enter the model as function
    parameters `sin`, `pidDist`, `pidSpeed` of the tick function, so every
    theorem quantifies over their behaviour.
  * Python exceptions that can escape the tick (ZeroDivisionError from the
    steering-correction division, IndexError from a gear-table or track
    lookup) are modelled explicitly: the tick returns the final state of
    the mutated objects together with `Option PyErr`, so mutations
    performed before an exception is raised are preserved, exactly as for
    Python objects mutated in place.
  * Python byte/character strings are modelled as `List Char`; the string
    operations used by the decoder (`strip`, `[:-1]`, `lstrip`, `rstrip`,
    `split`) are implemented on that representation.
-/
import Mathlib

namespace Snakeoil

/-! ## Basic utilities (snakeoil.PY lines 297-311) -/

/-- Function `clip(v,lo,hi)` of the source (lines 297-300). -/
def clip (v lo hi : ℚ) : ℚ :=
  if v < lo then lo
  else if v > hi then hi
  else v

/-- Table `gearUp = [5000, 6000, 6000, 6500, 7000, 0]` (line 303). -/
def gearUp : List ℤ := [5000, 6000, 6000, 6500, 7000, 0]

/-- Table `gearDown = [0, 2500, 3000, 3000, 3500, 3500]` (line 304). -/
def gearDown : List ℤ := [0, 2500, 3000, 3000, 3500, 3500]

/-- Constant `Road_Width = 20` (line 308). -/
def Road_Width : ℚ := 20

/-- Python's `int()` applied to a float: truncation toward zero. -/
def pytrunc (q : ℚ) : ℤ :=
  if 0 ≤ q then ⌊q⌋ else ⌈q⌉

/-! ## Data model -/

/-- The telemetry fields of `c.S.d` that the control loop reads. -/
structure ServerData where
  curLapTime : ℚ
  angle : ℚ
  trackPos : ℚ
  speedX : ℚ
  track : List ℚ
  gear : ℚ
  rpm : ℚ

/-- The driver-action dictionary `c.R.d` (lines 249-256). -/
structure Action where
  accel : ℚ
  brake : ℚ
  clutch : ℚ
  gear : ℤ
  steer : ℚ
  focus : List ℚ
  meta : ℚ
deriving DecidableEq

/-- The defaults of `DriverAction.__init__` (lines 249-256). -/
def Action.default : Action :=
  { accel := 1/5, brake := 0, clutch := 0, gear := 1, steer := 0,
    focus := [-90, -45, 0, 45, 90], meta := 0 }

/-- The static variables of `drive_example` (lines 320-323):
`drive_example.cur_time` and `drive_example.prev_cur_time`. -/
structure Memory where
  cur_time : ℚ
  prev_cur_time : ℚ
deriving DecidableEq

/-- A Python exception escaping the tick. -/
inductive PyErr where
  | zeroDiv
  | indexErr
deriving DecidableEq

/-! ## Gear and clutch policy (lines 397-404, 431-446) -/

/-- Function `get_gear(c)` (lines 431-446), after `gear = int(S['gear'])` and
`rpm = int(S['rpm'])` have been taken.  The list lookups `gearUp[gear-1]`
and `gearDown[gear-1]` are modelled with `List.get?`; an out-of-range
index is Python's `IndexError`, i.e. `none`.  The `and` of the source is
short-circuiting, so `gearUp[gear-1]` is only evaluated when `gear < 6`
and `gearDown[gear-1]` only when `gear > 1`. -/
def get_gear (gear rpm : ℤ) : Option ℤ :=
  if gear < 1 then some 1
  else
    if gear < 6 then
      match gearUp.get? (gear - 1).toNat with
      | none => none
      | some up =>
        if rpm ≥ up then some (gear + 1)
        else get_gear_down gear rpm
    else get_gear_down gear rpm
where
  /-- The `else` branch of `get_gear` (lines 442-446). -/
  get_gear_down (gear rpm : ℤ) : Option ℤ :=
    if gear > 1 then
      match gearDown.get? (gear - 1).toNat with
      | none => none
      | some dn =>
        if rpm ≤ dn then some (gear - 1) else some gear
    else some gear

/-- Function `clutching(c)` (lines 397-404): reads the (already updated) gear of
the action and overrides the clutch. -/
def clutching (R : Action) : Action :=
  if R.gear < 2 then { R with clutch := 1/2 }
  else { R with clutch := clip (R.clutch - 2/100) 0 1 }

/-! ## The control loop `drive_example` (lines 314-392) -/

/-- One tick of `drive_example(c, cccc)` (lines 314-392).

`sin` stands for `math.sin`; `pidDist` for
`controllerofdistance.output`, `pidSpeed` for `controllerofspeed.output`
(black-box external collaborators, applied to the measurement and the
two scale arguments of the call site).

Returns the final `(memory, action, escaped exception)`.  Mutations made
before an exception is raised are kept, matching Python's in-place
mutation of `c.R.d` and the function attributes. -/
def drive_example (sin : ℚ → ℚ) (pidDist2 pidSpeed2 : ℚ → ℚ → ℚ → ℚ)
    (S : ServerData) (mem : Memory) (R : Action) :
    Memory × Action × Option PyErr :=
  -- `drive_example.cur_time = S['curLapTime']` (line 330)
  let mem : Memory := { mem with cur_time := S.curLapTime }
  -- first-tick guard (lines 332-334)
  if mem.prev_cur_time = -1 then
    ({ mem with prev_cur_time := mem.cur_time }, R, none)
  else
    let angle := S.angle
    -- distance from edge (lines 337-342)
    let distance_from_edge : ℚ :=
      if S.trackPos ≥ 0 then |1 - S.trackPos| else |(-1) + S.trackPos|
    -- `dt = .01` (line 344)
    let dt : ℚ := 1/100
    let next_predicted_pos := distance_from_edge + S.speedX * dt * sin angle
    let signal_pid_angle := pidDist2 next_predicted_pos 1 (11/10)
    -- line 347: `signal_pid_angle -= trackPos/Road_Width + (track[6]-track[12])/(track[9]*2)`
    match S.track.get? 6, S.track.get? 12, S.track.get? 9 with
    | some t6, some t12, some t9 =>
      if t9 * 2 = 0 then (mem, R, some .zeroDiv)
      else
        let signal_pid_angle :=
          signal_pid_angle - (S.trackPos / Road_Width + (t6 - t12) / (t9 * 2))
        -- `R['steer'] = clip(-signal_pid_angle,-1,1)` (line 349)
        let R : Action := { R with steer := clip (-signal_pid_angle) (-1) 1 }
        -- hard-cornering early return (lines 350-353)
        if |R.steer| ≥ 4/100 ∧ S.speedX ≥ 100 then
          (mem,
           { R with clutch := clip (R.clutch + 1/1000) 0 1,
                    brake := clip (R.brake + 1/10000) 0 1 },
           none)
        else
          -- lines 354-359
          let R : Action :=
            if S.speedX ≥ 150 then
              { R with clutch := clip (R.clutch + 1/1000) 0 1, brake := 0 }
            else
              { R with clutch := 0, brake := 0 }
          -- throttle (lines 361-368)
          let R : Action :=
            if |S.trackPos| < 1 then
              { R with accel := clip (R.accel + pidSpeed2 S.speedX 1 (11/10)) 0 1 }
            else
              { R with accel := 3/10 }
          -- `R['gear'] = get_gear(c)` (line 383)
          match get_gear (pytrunc S.gear) (pytrunc S.rpm) with
          | none => (mem, R, some .indexErr)
          | some g =>
            let R : Action := clutching { R with gear := g }
            -- time bookkeeping (lines 386-390)
            let mem : Memory :=
              if mem.cur_time > mem.prev_cur_time then
                { mem with prev_cur_time := mem.cur_time }
              else
                { mem with prev_cur_time := mem.cur_time - 22/1000 }
            (mem, R, none)
    | _, _, _ => (mem, R, some .indexErr)

/-! ## The telemetry decoder (lines 217-229, 281-295)

Python byte strings are modelled as `List Char`. -/

/-- Whitespace characters stripped by Python's `strip()` with no
argument: space, tab, newline, carriage return, vertical tab, form
feed. -/
def isSpace (c : Char) : Bool :=
  c = ' ' ∨ c = '\t' ∨ c = '\n' ∨ c = '\r' ∨ c = Char.ofNat 11 ∨ c = Char.ofNat 12

/-- Python's `lstrip`: drop the leading characters satisfying `p`. -/
def lstripBy (p : Char → Bool) (s : List Char) : List Char :=
  s.dropWhile p

/-- Python's `rstrip`: drop the trailing characters satisfying `p`. -/
def rstripBy (p : Char → Bool) (s : List Char) : List Char :=
  (s.reverse.dropWhile p).reverse

/-- Python's `strip()` with no argument. -/
def pystrip (s : List Char) : List Char :=
  rstripBy isSpace (lstripBy isSpace s)

/-- Python's `split(')(')` as used on line 226: left-to-right scan for
non-overlapping occurrences of the two-character separator, keeping the
pieces between them (empty pieces included); `acc` is the piece under
construction, reversed. -/
def splitParen : List Char → List Char → List (List Char)
  | [], acc => [acc.reverse]
  | [c], acc => [(c :: acc).reverse]
  | c1 :: c2 :: cs, acc =>
    if c1 = ')' ∧ c2 = '(' then acc.reverse :: splitParen cs []
    else splitParen (c2 :: cs) (c1 :: acc)

/-- Python's `split(' ')` as used on line 228: split on every single
space, keeping empty pieces. -/
def splitSpace : List Char → List Char → List (List Char)
  | [], acc => [acc.reverse]
  | c :: cs, acc =>
    if c = ' ' then acc.reverse :: splitSpace cs []
    else splitSpace cs (c :: acc)

/-- Numeric value of a digit string (most significant digit first). -/
def natVal (ds : List Char) : ℕ :=
  ds.foldl (fun a c => 10 * a + (c.toNat - 48)) 0

/-- Helper for `parseFloat`: an unsigned decimal, `digits`,
`digits.digits`, `.digits` or `digits.`. -/
def parseUnsigned (s : List Char) : Option ℚ :=
  let ip := s.takeWhile Char.isDigit
  match s.dropWhile Char.isDigit with
  | [] => if ip = [] then none else some (natVal ip)
  | '.' :: fp =>
    if fp.all Char.isDigit ∧ (ip ≠ [] ∨ fp ≠ []) then
      some ((natVal ip : ℚ) + (natVal fp : ℚ) / (10 : ℚ) ^ fp.length)
    else none
  | _ => none

/-- Model of Python's builtin `float()` conversion applied to a value
token (the `float(s)` of `destringify`, line 287), restricted to plain
decimal notation: an optional sign followed by an unsigned decimal.
Every other token raises `ValueError`, i.e. returns `none`. -/
def parseFloat (s : List Char) : Option ℚ :=
  match s with
  | '-' :: r => (parseUnsigned r).map (fun q => -q)
  | '+' :: r => parseUnsigned r
  | _ => parseUnsigned s

/-- A decoded telemetry value: a number, a raw token kept as a string
after a failed conversion, or a list of values. -/
inductive Val where
  | num (q : ℚ)
  | str (s : List Char)
  | vals (vs : List Val)

/-- Function `destringify` (lines 281-295) applied to a single token
string: the float conversion, falling back to the raw token on
`ValueError`. -/
def destringify1 (s : List Char) : Val :=
  match parseFloat s with
  | some q => .num q
  | none => .str s

/-- Function `destringify` (lines 281-295) applied to a list of token
strings (the `w[1:]` of `parse_server_str`): an empty list is falsy and
returned as is; a one-element list is destringified as its sole element;
otherwise every element is destringified. -/
def destringify : List (List Char) → Val
  | [] => .vals []
  | [t] => destringify1 t
  | ts => .vals (ts.map destringify1)

/-- The dictionary `self.d` of `ServerState`, modelled as an association
list in which the most recent assignment is first. -/
abbrev Dict := List (List Char × Val)

/-- Assignment `self.d[k] = v`. -/
def dset (d : Dict) (k : List Char) (v : Val) : Dict :=
  (k, v) :: d

/-- Lookup `self.d[k]`: the most recent assignment wins. -/
def dget (d : Dict) (k : List Char) : Option Val :=
  (d.find? (fun p => decide (p.1 = k))).map Prod.snd

/-- Method `ServerState.parse_server_str` (lines 223-229): strip the raw
message, drop the trailing sentinel byte (`[:-1]`), strip again, strip
leading `(` and trailing `)`, split on `)(`, and for each group split on
spaces and assign `self.d[w[0]] = destringify(w[1:])`.  `d` is the
dictionary `self.d` the method mutates. -/
def parse_server_str (d : Dict) (server_string : List Char) : Dict :=
  let servstr := (pystrip server_string).dropLast
  let sslisted :=
    splitParen
      (rstripBy (fun c => c = ')') (lstripBy (fun c => c = '(') (pystrip servstr)))
      []
  sslisted.foldl (fun d i =>
    match splitSpace i [] with
    | [] => d
    | w0 :: wrest => dset d w0 (destringify wrest)) d

/-! ## Well-formed wire messages

The spec calls a raw input well formed when it consists only of groups
`(name v1 ... vk)` (no embedded parentheses, tokens separated by single
spaces), optionally followed by a trailing sentinel byte. -/

/-- A well-formed wire token (field name or value token): nonempty and
free of parentheses and whitespace. -/
def goodTok (t : List Char) : Prop :=
  t ≠ [] ∧ ∀ c ∈ t, c ≠ '(' ∧ c ≠ ')' ∧ isSpace c = false

/-- A well-formed group: the field name and every value token are
well-formed tokens. -/
def goodGroup (g : List Char × List (List Char)) : Prop :=
  goodTok g.1 ∧ ∀ t ∈ g.2, goodTok t

instance (t : List Char) : Decidable (goodTok t) := by
  unfold goodTok
  infer_instance

instance (g : List Char × List (List Char)) : Decidable (goodGroup g) := by
  unfold goodGroup
  infer_instance

/-- The text between the parentheses of a group: the field name and the
value tokens joined by single spaces. -/
def groupBody (g : List Char × List (List Char)) : List Char :=
  List.intercalate [' '] (g.1 :: g.2)

/-- A rendered group `(name v1 ... vk)`. -/
def renderGroup (g : List Char × List (List Char)) : List Char :=
  '(' :: (groupBody g ++ [')'])

/-- A raw wire message: the rendered groups in order, followed by the
trailing sentinel byte that `parse_server_str` drops. -/
def renderMsg (gs : List (List Char × List (List Char))) (sent : Char) : List Char :=
  (gs.map renderGroup).flatten ++ [sent]

/-- A sample telemetry record used by concrete witnesses. -/
def sampleS : ServerData :=
  { curLapTime := 1, angle := 0, trackPos := 0, speedX := 50,
    track := [50,50,50,50,50,50,50,50,50,50,50,50,50,50,50,50,50,50,50],
    gear := 2, rpm := 4000 }

/-- The action produced by one non-first tick from the default action on
`sampleS`, with all external collaborators returning 0. -/
def sampleTick : Action :=
  (drive_example (fun _ => 0) (fun _ _ _ => 0) (fun _ _ _ => 0) sampleS
    { cur_time := 0, prev_cur_time := 0 } Action.default).2.1

/-! ## Helper lemmas -/

lemma clip_mem (v lo hi : ℚ) (h : lo ≤ hi) :
    lo ≤ clip v lo hi ∧ clip v lo hi ≤ hi := by
  unfold clip
  split_ifs with h1 h2 <;> constructor <;> linarith

lemma clutching_steer (R : Action) : (clutching R).steer = R.steer := by
  unfold clutching
  split_ifs <;> rfl

lemma clutching_accel (R : Action) : (clutching R).accel = R.accel := by
  unfold clutching
  split_ifs <;> rfl

lemma clutching_brake (R : Action) : (clutching R).brake = R.brake := by
  unfold clutching
  split_ifs <;> rfl

lemma clutching_clutch (R : Action) :
    (clutching R).clutch = 1/2 ∨ (clutching R).clutch = clip (R.clutch - 2/100) 0 1 := by
  unfold clutching
  split_ifs with h
  · exact Or.inl rfl
  · exact Or.inr rfl

lemma clutching_clutch_mem (R : Action) :
    0 ≤ (clutching R).clutch ∧ (clutching R).clutch ≤ 1 := by
  unfold clutching
  split_ifs with h
  · norm_num
  · exact clip_mem _ 0 1 (by norm_num)

/-! ## Claims about the control loop -/

/-- C7: on the first tick of a session (previous-lap-time memory still at
its sentinel value −1), the control step stores the telemetry's
`curLapTime` into the previous-lap-time memory and returns with every
field of the action unchanged, for every telemetry record. -/
theorem C7_first_tick_guard (sin : ℚ → ℚ) (pd ps : ℚ → ℚ → ℚ → ℚ)
    (S : ServerData) (mem : Memory) (R : Action)
    (h : mem.prev_cur_time = -1) :
    drive_example sin pd ps S mem R =
      ({ cur_time := S.curLapTime, prev_cur_time := S.curLapTime }, R, none) := by
  simp [drive_example, h]

/-- Witness for C7 at a concrete telemetry record. -/
theorem C7_first_tick_guard_witness :
    drive_example (fun _ => 0) (fun _ _ _ => 0) (fun _ _ _ => 0)
      { curLapTime := 5, angle := 0, trackPos := 0, speedX := 0,
        track := [9,9,9,9,9,9,9,9,9,9,9,9,9], gear := 1, rpm := 3000 }
      { cur_time := 0, prev_cur_time := -1 } Action.default
      = ({ cur_time := 5, prev_cur_time := 5 }, Action.default, none) :=
  C7_first_tick_guard _ _ _ _ _ _ rfl

/-- C5: for every current gear in 1..6 and every rpm, `get_gear` upshifts
when `gear < 6` and rpm is at least the upshift threshold
`[5000,6000,6000,6500,7000][gear-1]`, else downshifts when `gear > 1` and
rpm is at most `[0,2500,3000,3000,3500,3500][gear-1]`, else holds;
`gear < 1` returns 1 unconditionally; the stated example inputs give 4, 2
and 1; and the result never differs from the input gear by more than
one. -/
theorem C5_gear_hysteresis :
    (∀ gear rpm : ℤ, 1 ≤ gear → gear ≤ 6 →
      get_gear gear rpm =
        some (if gear < 6 ∧ ([5000,6000,6000,6500,7000] : List ℤ).getD (gear-1).toNat 0 ≤ rpm
              then gear + 1
              else if 1 < gear ∧ rpm ≤ ([0,2500,3000,3000,3500,3500] : List ℤ).getD (gear-1).toNat 0
              then gear - 1 else gear))
    ∧ (∀ gear rpm : ℤ, gear < 1 → get_gear gear rpm = some 1)
    ∧ get_gear 3 7000 = some 4
    ∧ get_gear 3 2900 = some 2
    ∧ get_gear 1 0 = some 1
    ∧ (∀ gear rpm g : ℤ, 1 ≤ gear → gear ≤ 6 → get_gear gear rpm = some g →
        |g - gear| ≤ 1) := by
  refine ⟨?_, ?_, by decide, by decide, by decide, ?_⟩
  · intro gear rpm h1 h6
    interval_cases gear <;>
      simp [get_gear, get_gear.get_gear_down, gearUp, gearDown] <;>
      first
      | rfl
      | (split_ifs <;> rfl)
  · intro gear rpm h
    simp [get_gear, h]
  · intro gear rpm g h1 h6 hg
    rw [abs_le]
    interval_cases gear <;>
      simp [get_gear, get_gear.get_gear_down, gearUp, gearDown] at hg <;>
      split_ifs at hg <;>
      simp only [Option.some.injEq] at hg <;> omega

/-- Witness for C5 at gear 3, rpm 7000. -/
theorem C5_gear_hysteresis_witness :
    get_gear 3 7000 =
      some (if (3:ℤ) < 6 ∧ ([5000,6000,6000,6500,7000] : List ℤ).getD ((3:ℤ)-1).toNat 0 ≤ 7000
            then 3 + 1
            else if (1:ℤ) < 3 ∧ (7000:ℤ) ≤ ([0,2500,3000,3000,3500,3500] : List ℤ).getD ((3:ℤ)-1).toNat 0
            then 3 - 1 else 3) :=
  C5_gear_hysteresis.1 3 7000 (by decide) (by decide)

/-- C6 counterexample: the claim says the threshold-table index is
clamped to 1..6 so that the lookup is in bounds for every telemetry gear,
including values above 6; but at gear 7 (rpm 3000) the source evaluates
`gearDown[6]` on a 6-element list, which raises `IndexError` — modelled
as `none`, so no gear is returned. -/
theorem C6_counterexample : get_gear (pytrunc 7) (pytrunc 3000) = none := by decide

/-- C6 amended: `get_gear` performs no clamping.  For every truncated
telemetry gear at most 6 the table lookups are in bounds and a gear is
returned (a gear below 1 returns 1 before any lookup), but for every
gear of 7 or more the downshift-table lookup at index `gear − 1 ≥ 6` is
out of bounds and the call raises `IndexError`. -/
theorem C6_no_clamping (gear rpm : ℤ) :
    (gear ≤ 6 → ∃ g, get_gear gear rpm = some g)
    ∧ (7 ≤ gear → get_gear gear rpm = none) := by
  constructor
  · intro h6
    rcases lt_or_le gear 1 with h1 | h1
    · exact ⟨1, by simp [get_gear, h1]⟩
    · interval_cases gear <;>
        · simp [get_gear, get_gear.get_gear_down, gearUp, gearDown]
          split_ifs <;> exact ⟨_, rfl⟩
  · intro h7
    have hd : gearDown[gear.toNat - 1]? = none := by
      apply List.getElem?_eq_none
      simp only [gearDown, List.length_cons, List.length_nil]
      omega
    simp [get_gear, get_gear.get_gear_down, hd, show ¬gear < 1 by omega,
      show ¬gear < 6 by omega, show 1 < gear by omega]

/-- Witness for C6 amended, at gears 5 and 8. -/
theorem C6_no_clamping_witness :
    (∃ g, get_gear 5 4000 = some g) ∧ get_gear 8 0 = none :=
  ⟨(C6_no_clamping 5 4000).1 (by decide), (C6_no_clamping 8 0).2 (by decide)⟩

/-- C2 (division by zero at the forward sensor): contrary to the claim,
the control step has no guard on the division by `track[9]`.  On a
non-first tick whose telemetry has `track[9] = 0`, evaluating the
steering correction `(track[6]-track[12])/(track[9]*2)` raises
`ZeroDivisionError`; the step terminates with that exception and no
steering value is computed (the action is left untouched). -/
theorem C2_zero_forward_sensor_raises :
    drive_example (fun _ => 0) (fun _ _ _ => 0) (fun _ _ _ => 0)
      { curLapTime := 1, angle := 0, trackPos := 0, speedX := 50,
        track := [50,50,50,50,50,50,50,50,50,0,50,50,50,50,50,50,50,50,50],
        gear := 1, rpm := 3000 }
      { cur_time := 0, prev_cur_time := 0 } Action.default
      = ({ cur_time := 1, prev_cur_time := 0 }, Action.default, some .zeroDiv) := by
  simp [drive_example, Action.default]

/-- C3: on every non-first tick whose telemetry provides the rangefinder
readings `track[6]`, `track[12]`, `track[9]` with `track[9] ≠ 0`, the
steer field of the action after the tick equals `clip(−(L − C), −1, 1)`,
where `L` is the lateral PID output (scale arguments 1 and 1.1) at the
predicted position `d + speedX·0.01·sin(angle)`, `d` is `|1 − trackPos|`
for `trackPos ≥ 0` and `|−1 + trackPos|` otherwise, and
`C = trackPos/20 + (track[6] − track[12])/(2·track[9])`. -/
theorem C3_steering_formula (sin : ℚ → ℚ) (pd ps : ℚ → ℚ → ℚ → ℚ)
    (S : ServerData) (mem : Memory) (R : Action) (t6 t12 t9 : ℚ)
    (hprev : mem.prev_cur_time ≠ -1)
    (h6 : S.track.get? 6 = some t6) (h12 : S.track.get? 12 = some t12)
    (h9 : S.track.get? 9 = some t9) (h9nz : t9 ≠ 0) :
    (drive_example sin pd ps S mem R).2.1.steer =
      clip (-(pd ((if S.trackPos ≥ 0 then |1 - S.trackPos| else |(-1) + S.trackPos|)
              + S.speedX * (1/100) * sin S.angle) 1 (11/10)
            - (S.trackPos / 20 + (t6 - t12) / (2 * t9)))) (-1) 1 := by
  have h2 : ¬ t9 * 2 = 0 := by
    intro h
    exact h9nz (by linarith)
  rw [mul_comm 2 t9]
  simp only [drive_example, h6, h12, h9, Road_Width]
  rw [if_neg (by simpa using hprev)]
  simp only [if_neg h2]
  split_ifs <;>
    first
    | rfl
    | · rcases hg : get_gear (pytrunc S.gear) (pytrunc S.rpm) with _ | g <;>
        simp [hg, clutching_steer]

/-- Witness for C3 at a concrete tick. -/
theorem C3_steering_formula_witness :
    (drive_example (fun _ => 0) (fun _ _ _ => 0) (fun _ _ _ => 0)
      { curLapTime := 1, angle := 0, trackPos := 0, speedX := 50,
        track := [50,50,50,50,50,50,40,50,50,50,50,50,60,50,50,50,50,50,50],
        gear := 2, rpm := 4000 }
      { cur_time := 0, prev_cur_time := 0 } Action.default).2.1.steer =
      clip (-((fun _ _ _ => (0:ℚ)) ((if (0:ℚ) ≥ 0 then |1 - (0:ℚ)| else |(-1) + (0:ℚ)|)
              + 50 * (1/100) * (fun _ => (0:ℚ)) 0) 1 (11/10)
            - ((0:ℚ) / 20 + ((40:ℚ) - 60) / (2 * 50)))) (-1) 1 :=
  C3_steering_formula _ _ _ _ _ _ _ _ _ (by norm_num) rfl rfl rfl (by norm_num)

/-- C4: on a non-first tick where the freshly computed steer has
magnitude at least 0.04 and `speedX ≥ 100`, the step sets
`clutch := clip(clutch+0.001, 0, 1)` and `brake := clip(brake+0.0001, 0, 1)`
and returns early: accel, gear, focus and meta are exactly the values
before the tick, and neither throttle, gear-selection nor clutch-policy
logic runs (no exception either). -/
theorem C4_hard_cornering (sin : ℚ → ℚ) (pd ps : ℚ → ℚ → ℚ → ℚ)
    (S : ServerData) (mem : Memory) (R : Action) (t6 t12 t9 st : ℚ)
    (hprev : mem.prev_cur_time ≠ -1)
    (h6 : S.track.get? 6 = some t6) (h12 : S.track.get? 12 = some t12)
    (h9 : S.track.get? 9 = some t9) (h9nz : t9 ≠ 0)
    (hst : st = clip (-(pd ((if S.trackPos ≥ 0 then |1 - S.trackPos| else |(-1) + S.trackPos|)
              + S.speedX * (1/100) * sin S.angle) 1 (11/10)
            - (S.trackPos / Road_Width + (t6 - t12) / (t9 * 2)))) (-1) 1)
    (hsteer : |st| ≥ 4/100) (hspeed : S.speedX ≥ 100) :
    drive_example sin pd ps S mem R =
      ({ cur_time := S.curLapTime, prev_cur_time := mem.prev_cur_time },
       { R with steer := st,
                clutch := clip (R.clutch + 1/1000) 0 1,
                brake := clip (R.brake + 1/10000) 0 1 },
       none) := by
  have h2 : ¬ t9 * 2 = 0 := by
    intro h
    exact h9nz (by linarith)
  simp only [drive_example, h6, h12, h9]
  rw [if_neg (by simpa using hprev)]
  simp only [if_neg h2, ← hst]
  rw [if_pos ⟨hsteer, hspeed⟩]

/-- Witness for C4 at a concrete tick with `steer = −1`, `speedX = 120`. -/
theorem C4_hard_cornering_witness :
    drive_example (fun _ => 0) (fun _ _ _ => 100) (fun _ _ _ => 0)
      { curLapTime := 1, angle := 0, trackPos := 0, speedX := 120,
        track := [50,50,50,50,50,50,50,50,50,50,50,50,50,50,50,50,50,50,50],
        gear := 3, rpm := 4000 }
      { cur_time := 0, prev_cur_time := 0 } Action.default =
      ({ cur_time := 1, prev_cur_time := 0 },
       { Action.default with
           steer := -1,
           clutch := clip (Action.default.clutch + 1/1000) 0 1,
           brake := clip (Action.default.brake + 1/10000) 0 1 },
       none) :=
  C4_hard_cornering _ _ _ _ _ _ _ _ _ (-1) (by norm_num) rfl rfl rfl (by norm_num)
    (by norm_num [clip, Action.default]) (by norm_num [Action.default]) (by norm_num)

/-- C10: on a tick that takes the hard-cornering early return, the
previous-lap-time memory `prev_cur_time` is exactly what it was before
the tick (the lap-time bookkeeping of the tail of the tick is skipped). -/
theorem C10_prev_time_kept (sin : ℚ → ℚ) (pd ps : ℚ → ℚ → ℚ → ℚ)
    (S : ServerData) (mem : Memory) (R : Action) (t6 t12 t9 st : ℚ)
    (hprev : mem.prev_cur_time ≠ -1)
    (h6 : S.track.get? 6 = some t6) (h12 : S.track.get? 12 = some t12)
    (h9 : S.track.get? 9 = some t9) (h9nz : t9 ≠ 0)
    (hst : st = clip (-(pd ((if S.trackPos ≥ 0 then |1 - S.trackPos| else |(-1) + S.trackPos|)
              + S.speedX * (1/100) * sin S.angle) 1 (11/10)
            - (S.trackPos / Road_Width + (t6 - t12) / (t9 * 2)))) (-1) 1)
    (hsteer : |st| ≥ 4/100) (hspeed : S.speedX ≥ 100) :
    (drive_example sin pd ps S mem R).1.prev_cur_time = mem.prev_cur_time := by
  have h2 : ¬ t9 * 2 = 0 := by
    intro h
    exact h9nz (by linarith)
  simp only [drive_example, h6, h12, h9]
  rw [if_neg (by simpa using hprev)]
  simp only [if_neg h2, ← hst]
  rw [if_pos ⟨hsteer, hspeed⟩]

/-- Witness for C10 at a concrete hard-cornering tick. -/
theorem C10_prev_time_kept_witness :
    (drive_example (fun _ => 0) (fun _ _ _ => 100) (fun _ _ _ => 0)
      { curLapTime := 1, angle := 0, trackPos := 0, speedX := 120,
        track := [50,50,50,50,50,50,50,50,50,50,50,50,50,50,50,50,50,50,50],
        gear := 3, rpm := 4000 }
      { cur_time := 0, prev_cur_time := 0 } Action.default).1.prev_cur_time = 0 :=
  C10_prev_time_kept _ _ _ _ _ _ _ _ _ (-1) (by norm_num) rfl rfl rfl (by norm_num)
    (by norm_num [clip, Action.default]) (by norm_num [Action.default]) (by norm_num)

/-- C1: every tick that is not the first-tick guard return produces an
action whose steer lies in [−1,1] and whose accel, brake and clutch lie
in [0,1], for every telemetry record and every PID output, provided the
action fields respected those ranges before the tick (they do initially
and, by this very statement, after every tick). -/
theorem C1_output_ranges (sin : ℚ → ℚ) (pd ps : ℚ → ℚ → ℚ → ℚ)
    (S : ServerData) (mem : Memory) (R R' : Action)
    (hprev : mem.prev_cur_time ≠ -1)
    (ha0 : 0 ≤ R.accel) (ha1 : R.accel ≤ 1)
    (hb0 : 0 ≤ R.brake) (hb1 : R.brake ≤ 1)
    (hc0 : 0 ≤ R.clutch) (hc1 : R.clutch ≤ 1)
    (hs0 : -1 ≤ R.steer) (hs1 : R.steer ≤ 1)
    (hR' : R' = (drive_example sin pd ps S mem R).2.1) :
    (-1 ≤ R'.steer ∧ R'.steer ≤ 1) ∧ (0 ≤ R'.accel ∧ R'.accel ≤ 1)
    ∧ (0 ≤ R'.brake ∧ R'.brake ≤ 1) ∧ (0 ≤ R'.clutch ∧ R'.clutch ≤ 1) := by
  subst hR'
  have hclip1 : ∀ v : ℚ, -1 ≤ clip v (-1) 1 ∧ clip v (-1) 1 ≤ 1 :=
    fun v => clip_mem v (-1) 1 (by norm_num)
  have hclip0 : ∀ v : ℚ, 0 ≤ clip v 0 1 ∧ clip v 0 1 ≤ 1 :=
    fun v => clip_mem v 0 1 (by norm_num)
  have hzero : (0:ℚ) ≤ 0 ∧ (0:ℚ) ≤ 1 := by norm_num
  have h310 : (0:ℚ) ≤ 3/10 ∧ (3:ℚ)/10 ≤ 1 := by norm_num
  have hbase : (-1 ≤ R.steer ∧ R.steer ≤ 1) ∧ (0 ≤ R.accel ∧ R.accel ≤ 1)
      ∧ (0 ≤ R.brake ∧ R.brake ≤ 1) ∧ (0 ≤ R.clutch ∧ R.clutch ≤ 1) :=
    ⟨⟨hs0, hs1⟩, ⟨ha0, ha1⟩, ⟨hb0, hb1⟩, ⟨hc0, hc1⟩⟩
  simp only [drive_example]
  rw [if_neg (by simpa using hprev)]
  rcases h6 : S.track.get? 6 with _ | t6
  · exact hbase
  rcases h12 : S.track.get? 12 with _ | t12
  · exact hbase
  rcases h9 : S.track.get? 9 with _ | t9
  · exact hbase
  by_cases hz : t9 * 2 = 0
  · simp only [if_pos hz]
    exact hbase
  simp only [if_neg hz]
  set L := pd ((if S.trackPos ≥ 0 then |1 - S.trackPos| else |(-1) + S.trackPos|)
      + S.speedX * (1/100) * sin S.angle) 1 (11/10) with hL
  set A := ps S.speedX 1 (11/10) with hA
  set st := clip (-(L - (S.trackPos / Road_Width + (t6 - t12) / (t9 * 2)))) (-1) 1 with hst
  have hstb : -1 ≤ st ∧ st ≤ 1 := by rw [hst]; exact hclip1 _
  by_cases hhard : |st| ≥ 4/100 ∧ S.speedX ≥ 100
  · simp only [if_pos hhard]
    exact ⟨hstb, ⟨ha0, ha1⟩, hclip0 _, hclip0 _⟩
  simp only [if_neg hhard]
  by_cases h150 : S.speedX ≥ 150
  · simp only [if_pos h150]
    by_cases htp : |S.trackPos| < 1
    · simp only [if_pos htp]
      rcases hg : get_gear (pytrunc S.gear) (pytrunc S.rpm) with _ | g
      · exact ⟨hstb, hclip0 _, hzero, hclip0 _⟩
      · refine ⟨?_, ?_, ?_, ?_⟩
        · simp only [clutching_steer]
          exact hstb
        · simp only [clutching_accel]
          exact hclip0 _
        · simp only [clutching_brake]
          exact hzero
        · exact clutching_clutch_mem _
    · simp only [if_neg htp]
      rcases hg : get_gear (pytrunc S.gear) (pytrunc S.rpm) with _ | g
      · exact ⟨hstb, h310, hzero, hclip0 _⟩
      · refine ⟨?_, ?_, ?_, ?_⟩
        · simp only [clutching_steer]
          exact hstb
        · simp only [clutching_accel]
          exact h310
        · simp only [clutching_brake]
          exact hzero
        · exact clutching_clutch_mem _
  · simp only [if_neg h150]
    by_cases htp : |S.trackPos| < 1
    · simp only [if_pos htp]
      rcases hg : get_gear (pytrunc S.gear) (pytrunc S.rpm) with _ | g
      · exact ⟨hstb, hclip0 _, hzero, hzero⟩
      · refine ⟨?_, ?_, ?_, ?_⟩
        · simp only [clutching_steer]
          exact hstb
        · simp only [clutching_accel]
          exact hclip0 _
        · simp only [clutching_brake]
          exact hzero
        · exact clutching_clutch_mem _
    · simp only [if_neg htp]
      rcases hg : get_gear (pytrunc S.gear) (pytrunc S.rpm) with _ | g
      · exact ⟨hstb, h310, hzero, hzero⟩
      · refine ⟨?_, ?_, ?_, ?_⟩
        · simp only [clutching_steer]
          exact hstb
        · simp only [clutching_accel]
          exact h310
        · simp only [clutching_brake]
          exact hzero
        · exact clutching_clutch_mem _

/-- Witness for C1 at a concrete tick from the default action. -/
theorem C1_output_ranges_witness :
    (-1 ≤ sampleTick.steer ∧ sampleTick.steer ≤ 1) ∧
    (0 ≤ sampleTick.accel ∧ sampleTick.accel ≤ 1) ∧
    (0 ≤ sampleTick.brake ∧ sampleTick.brake ≤ 1) ∧
    (0 ≤ sampleTick.clutch ∧ sampleTick.clutch ≤ 1) :=
  C1_output_ranges (fun _ => 0) (fun _ _ _ => 0) (fun _ _ _ => 0) sampleS
    { cur_time := 0, prev_cur_time := 0 } Action.default sampleTick (by decide)
    (by norm_num [Action.default]) (by norm_num [Action.default])
    (by norm_num [Action.default]) (by norm_num [Action.default])
    (by norm_num [Action.default]) (by norm_num [Action.default])
    (by norm_num [Action.default]) (by norm_num [Action.default]) rfl

/-! ## Decoder lemmas -/

lemma lstripBy_cons_neg {p : Char → Bool} {a : Char} {l : List Char} (h : p a = false) :
    lstripBy p (a :: l) = a :: l := by
  simp [lstripBy, List.dropWhile_cons, h]

lemma rstripBy_concat_neg {p : Char → Bool} {b : Char} (l : List Char) (h : p b = false) :
    rstripBy p (l ++ [b]) = l ++ [b] := by
  simp [rstripBy, List.dropWhile_cons, h]

lemma rstripBy_pair {p : Char → Bool} {b a : Char} (l : List Char)
    (hb : p b = false) (ha : p a = true) :
    rstripBy p ((l ++ [b]) ++ [a]) = l ++ [b] := by
  simp [rstripBy, List.dropWhile_cons, ha, hb]

lemma pystrip_sandwich {a b : Char} (l : List Char)
    (ha : isSpace a = false) (hb : isSpace b = false) :
    pystrip (a :: (l ++ [b])) = a :: (l ++ [b]) := by
  unfold pystrip
  rw [lstripBy_cons_neg ha]
  exact rstripBy_concat_neg (a :: l) hb

lemma splitParen_cons_ne (c : Char) (s acc : List Char) (h : c ≠ ')') :
    splitParen (c :: s) acc = splitParen s (c :: acc) := by
  cases s with
  | nil => rfl
  | cons d t => simp [splitParen, h]

lemma splitParen_chunk (body rest acc : List Char) (h : ∀ c ∈ body, c ≠ ')') :
    splitParen (body ++ rest) acc = splitParen rest (body.reverse ++ acc) := by
  induction body generalizing acc with
  | nil => simp
  | cons c b ih =>
    rw [List.cons_append, splitParen_cons_ne c _ _ (h c (by simp))]
    rw [ih _ (fun x hx => h x (by simp [hx]))]
    simp [List.append_assoc]

lemma splitParen_sep (rest acc : List Char) :
    splitParen (')' :: '(' :: rest) acc = acc.reverse :: splitParen rest [] := by
  simp [splitParen]

lemma splitParen_intercalate (parts : List (List Char))
    (hne : parts ≠ []) (h : ∀ p ∈ parts, ∀ c ∈ p, c ≠ ')') :
    splitParen (List.intercalate [')', '('] parts) [] = parts := by
  induction parts with
  | nil => exact absurd rfl hne
  | cons p ps ih =>
    cases ps with
    | nil =>
      have h1 : List.intercalate [')', '('] [p] = p := by
        simp [List.intercalate]
      rw [h1]
      have h2 := splitParen_chunk p [] [] (h p (by simp))
      simpa [splitParen] using h2
    | cons q qs =>
      have hic : List.intercalate [')', '('] (p :: q :: qs)
          = p ++ (')' :: '(' :: List.intercalate [')', '('] (q :: qs)) := by
        simp [List.intercalate, List.intersperse_cons_cons]
      rw [hic, splitParen_chunk p _ [] (h p (by simp)), splitParen_sep]
      rw [ih (by simp) (fun x hx => h x (by simp [hx]))]
      simp

lemma splitSpace_cons_ne (c : Char) (s acc : List Char) (h : c ≠ ' ') :
    splitSpace (c :: s) acc = splitSpace s (c :: acc) := by
  simp [splitSpace, h]

lemma splitSpace_chunk (body rest acc : List Char) (h : ∀ c ∈ body, c ≠ ' ') :
    splitSpace (body ++ rest) acc = splitSpace rest (body.reverse ++ acc) := by
  induction body generalizing acc with
  | nil => simp
  | cons c b ih =>
    rw [List.cons_append, splitSpace_cons_ne c _ _ (h c (by simp))]
    rw [ih _ (fun x hx => h x (by simp [hx]))]
    simp [List.append_assoc]

lemma splitSpace_sep (rest acc : List Char) :
    splitSpace (' ' :: rest) acc = acc.reverse :: splitSpace rest [] := by
  simp [splitSpace]

lemma splitSpace_intercalate (parts : List (List Char))
    (hne : parts ≠ []) (h : ∀ p ∈ parts, ∀ c ∈ p, c ≠ ' ') :
    splitSpace (List.intercalate [' '] parts) [] = parts := by
  induction parts with
  | nil => exact absurd rfl hne
  | cons p ps ih =>
    cases ps with
    | nil =>
      have h1 : List.intercalate [' '] [p] = p := by
        simp [List.intercalate]
      rw [h1]
      have h2 := splitSpace_chunk p [] [] (h p (by simp))
      simpa [splitSpace] using h2
    | cons q qs =>
      have hic : List.intercalate [' '] (p :: q :: qs)
          = p ++ (' ' :: List.intercalate [' '] (q :: qs)) := by
        simp [List.intercalate, List.intersperse_cons_cons]
      rw [hic, splitSpace_chunk p _ [] (h p (by simp)), splitSpace_sep]
      rw [ih (by simp) (fun x hx => h x (by simp [hx]))]
      simp

lemma mem_intersperse {α : Type} {x sep : α} {L : List α}
    (h : x ∈ L.intersperse sep) : x = sep ∨ x ∈ L := by
  induction L with
  | nil => simp at h
  | cons a t ih =>
    cases t with
    | nil => simp at h; simp [h]
    | cons b u =>
      rw [List.intersperse_cons_cons] at h
      simp only [List.mem_cons] at h
      rcases h with rfl | rfl | h
      · simp
      · exact Or.inl rfl
      · rcases ih h with h2 | h2
        · exact Or.inl h2
        · simp [h2]

lemma mem_intercalate {α : Type} {c : α} {sep : List α} {parts : List (List α)}
    (hc : c ∈ List.intercalate sep parts) :
    c ∈ sep ∨ ∃ p ∈ parts, c ∈ p := by
  unfold List.intercalate at hc
  rw [List.mem_flatten] at hc
  obtain ⟨l, hl, hcl⟩ := hc
  rcases mem_intersperse hl with rfl | hmem
  · exact Or.inl hcl
  · exact Or.inr ⟨l, hmem, hcl⟩

lemma intercalate_cons_append {α : Type} (s n : List α) (ts : List (List α)) :
    ∃ r, List.intercalate s (n :: ts) = n ++ r := by
  cases ts with
  | nil => exact ⟨[], by simp [List.intercalate]⟩
  | cons t ts2 =>
    refine ⟨s ++ List.intercalate s (t :: ts2), ?_⟩
    simp [List.intercalate, List.intersperse_cons_cons]

lemma intercalate_concat_append {α : Type} (s p : List α) (ps : List (List α)) :
    ∃ r, List.intercalate s (ps ++ [p]) = r ++ p := by
  induction ps with
  | nil => exact ⟨[], by simp [List.intercalate]⟩
  | cons q ps2 ih =>
    obtain ⟨r, hr⟩ := ih
    have hne : ps2 ++ [p] ≠ [] := by simp
    obtain ⟨t, ts, ht⟩ := List.exists_cons_of_ne_nil hne
    refine ⟨q ++ s ++ r, ?_⟩
    rw [List.cons_append]
    rw [show List.intercalate s (q :: (ps2 ++ [p]))
        = q ++ (s ++ List.intercalate s (ps2 ++ [p])) by
      rw [ht]; simp [List.intercalate, List.intersperse_cons_cons]]
    rw [hr]
    simp [List.append_assoc]

lemma goodTok_chars {t : List Char} (h : goodTok t) {c : Char} (hc : c ∈ t) :
    c ≠ '(' ∧ c ≠ ')' ∧ isSpace c = false :=
  h.2 c hc

lemma goodGroup_tok {g : List Char × List (List Char)} (hg : goodGroup g)
    {p : List Char} (hp : p ∈ g.1 :: g.2) : goodTok p := by
  rw [List.mem_cons] at hp
  rcases hp with rfl | hp
  · exact hg.1
  · exact hg.2 p hp

lemma groupBody_chars {g : List Char × List (List Char)} (hg : goodGroup g)
    {c : Char} (hc : c ∈ groupBody g) : c ≠ '(' ∧ c ≠ ')' := by
  rcases mem_intercalate hc with hs | ⟨p, hp, hcp⟩
  · simp at hs
    subst hs
    exact ⟨by decide, by decide⟩
  · have := (goodGroup_tok hg hp).2 c hcp
    exact ⟨this.1, this.2.1⟩

lemma flatten_renderGroups (gs : List (List Char × List (List Char))) (hne : gs ≠ []) :
    (gs.map renderGroup).flatten
      = '(' :: (List.intercalate [')', '('] (gs.map groupBody) ++ [')']) := by
  induction gs with
  | nil => exact absurd rfl hne
  | cons g t ih =>
    cases t with
    | nil =>
      simp [renderGroup, List.intercalate]
    | cons g2 t2 =>
      rw [List.map_cons, List.flatten_cons, ih (by simp)]
      simp only [List.map_cons]
      rw [show List.intercalate [')', '('] (groupBody g :: groupBody g2 :: t2.map groupBody)
          = groupBody g ++ (')' :: '(' :: List.intercalate [')', '(']
              (groupBody g2 :: t2.map groupBody)) by
        simp [List.intercalate, List.intersperse_cons_cons]]
      simp [renderGroup, List.cons_append, List.append_assoc]

lemma prep_renderMsg (gs : List (List Char × List (List Char))) (sent : Char)
    (hgs : gs ≠ []) (hsent : isSpace sent = false)
    (hgood : ∀ g ∈ gs, goodGroup g) :
    rstripBy (fun c => c = ')') (lstripBy (fun c => c = '(')
        (pystrip ((pystrip (renderMsg gs sent)).dropLast)))
      = List.intercalate [')', '('] (gs.map groupBody) := by
  obtain ⟨g0, gt, rfl⟩ := List.exists_cons_of_ne_nil hgs
  set bodies := (g0 :: gt).map groupBody with hbodies
  set ic := List.intercalate [')', '('] bodies with hic
  obtain ⟨r1, hr1⟩ := intercalate_cons_append [')', '('] (groupBody g0) (gt.map groupBody)
  obtain ⟨r0, hr0⟩ := intercalate_cons_append [' '] g0.1 g0.2
  have hg0 : goodGroup g0 := hgood g0 (by simp)
  obtain ⟨c0, nm, hnm⟩ := List.exists_cons_of_ne_nil hg0.1.1
  have hc0 : c0 ≠ '(' ∧ c0 ≠ ')' ∧ isSpace c0 = false :=
    hg0.1.2 c0 (by rw [hnm]; simp)
  have hic_cons : ic = c0 :: (nm ++ r0 ++ r1) := by
    calc ic = groupBody g0 ++ r1 := by
          rw [hic, hbodies, List.map_cons]
          exact hr1
      _ = (g0.1 ++ r0) ++ r1 := by rw [groupBody, hr0]
      _ = c0 :: (nm ++ r0 ++ r1) := by rw [hnm]; simp [List.append_assoc]
  have hbne : bodies ≠ [] := by simp [hbodies]
  rcases List.eq_nil_or_concat bodies with hb | ⟨bs, blast, hbl⟩
  · exact absurd hb hbne
  rw [List.concat_eq_append] at hbl
  obtain ⟨r2, hr2⟩ := intercalate_concat_append [')', '('] blast bs
  have hblast_mem : blast ∈ bodies := by rw [hbl]; simp
  obtain ⟨g2, hg2mem, hg2eq⟩ := List.mem_map.1 (by rw [hbodies] at hblast_mem; exact hblast_mem)
  have hg2good : goodGroup g2 := hgood g2 hg2mem
  rcases List.eq_nil_or_concat (g2.1 :: g2.2) with hp | ⟨ps2, plast, hps2⟩
  · simp at hp
  rw [List.concat_eq_append] at hps2
  obtain ⟨r3, hr3⟩ := intercalate_concat_append [' '] plast ps2
  have hplast_good : goodTok plast := by
    apply goodGroup_tok hg2good
    rw [hps2]
    simp
  rcases List.eq_nil_or_concat plast with hpl | ⟨pl, lc, hpl⟩
  · exact absurd hpl hplast_good.1
  rw [List.concat_eq_append] at hpl
  have hlc : lc ≠ ')' := by
    have := hplast_good.2 lc (by rw [hpl]; simp)
    exact this.2.1
  have hic_snoc : ic = (r2 ++ (r3 ++ pl)) ++ [lc] := by
    calc ic = r2 ++ blast := by
          rw [hic, hbl]
          exact hr2
      _ = r2 ++ (r3 ++ plast) := by
          rw [← hg2eq, groupBody, hps2, hr3]
      _ = (r2 ++ (r3 ++ pl)) ++ [lc] := by rw [hpl]; simp [List.append_assoc]
  have hflat := flatten_renderGroups (g0 :: gt) (by simp)
  have hmsg : renderMsg (g0 :: gt) sent = '(' :: ((ic ++ [')']) ++ [sent]) := by
    rw [renderMsg, hflat, ← hbodies, ← hic]
    simp [List.cons_append]
  rw [hmsg]
  rw [pystrip_sandwich (ic ++ [')']) (by decide) hsent]
  rw [show ('(' :: ((ic ++ [')']) ++ [sent]) : List Char)
      = ('(' :: (ic ++ [')'])) ++ [sent] by simp]
  rw [List.dropLast_concat]
  rw [pystrip_sandwich ic (by decide) (by decide)]
  have hls : lstripBy (fun c => c = '(') ('(' :: (ic ++ [')'])) = ic ++ [')'] := by
    unfold lstripBy
    rw [List.dropWhile_cons, if_pos (by decide)]
    rw [hic_cons, List.cons_append, List.dropWhile_cons, if_neg (by simp [hc0.1])]
  rw [hls]
  rw [hic_snoc]
  exact rstripBy_pair (r2 ++ (r3 ++ pl)) (by simp [hlc]) (by decide)

lemma dget_dset (d : Dict) (k : List Char) (v : Val) (n : List Char) :
    dget (dset d k v) n = if k = n then some v else dget d n := by
  by_cases h : k = n <;> simp [dget, dset, List.find?_cons, h]

lemma dget_foldl_dset (gs : List (List Char × List (List Char))) (d : Dict) (n : List Char) :
    dget (gs.foldl (fun d g => dset d g.1 (destringify g.2)) d) n =
      ((gs.reverse.find? (fun g => decide (g.1 = n))).map
        (fun g => destringify g.2)).or (dget d n) := by
  induction gs generalizing d with
  | nil => simp
  | cons g t ih =>
    rw [List.foldl_cons, ih, List.reverse_cons, List.find?_append]
    cases hf : t.reverse.find? (fun g => decide (g.1 = n)) with
    | some a => simp
    | none =>
      rw [dget_dset]
      by_cases h : g.1 = n <;> simp [List.find?, h]

lemma splitSpace_groupBody {g : List Char × List (List Char)} (hg : goodGroup g) :
    splitSpace (groupBody g) [] = g.1 :: g.2 := by
  apply splitSpace_intercalate
  · simp
  · intro p hp c hc hceq
    have h := (goodGroup_tok hg hp).2 c hc
    subst hceq
    exact absurd h.2.2 (by decide)

lemma parse_foldl_groups (gs : List (List Char × List (List Char))) (d : Dict)
    (hg : ∀ g ∈ gs, goodGroup g) :
    (gs.map groupBody).foldl (fun d i =>
        match splitSpace i [] with
        | [] => d
        | w0 :: wrest => dset d w0 (destringify wrest)) d
      = gs.foldl (fun d g => dset d g.1 (destringify g.2)) d := by
  induction gs generalizing d with
  | nil => rfl
  | cons g t ih =>
    simp only [List.map_cons, List.foldl_cons]
    rw [splitSpace_groupBody (hg g (by simp))]
    exact ih _ (fun x hx => hg x (by simp [hx]))

/-! ## Claims about the decoder -/

/-- C8: for every raw input consisting only of well-formed groups (with a
trailing non-whitespace sentinel byte), the decoder succeeds and maps
each field name to the value of its last group (last-write-wins on
duplicates); a group with exactly one value token yields a scalar float,
one with two or more tokens yields a list, and a token that fails the
numeric conversion is retained as its original string. -/
theorem C8_decode_wellformed (gs : List (List Char × List (List Char))) (sent : Char)
    (hgs : gs ≠ []) (hsent : isSpace sent = false)
    (hgood : ∀ g ∈ gs, goodGroup g) :
    (∀ n, dget (parse_server_str [] (renderMsg gs sent)) n =
        (gs.reverse.find? (fun g => decide (g.1 = n))).map (fun g => destringify g.2))
    ∧ (∀ t q, parseFloat t = some q → destringify [t] = Val.num q)
    ∧ (∀ t, parseFloat t = none → destringify [t] = Val.str t)
    ∧ (∀ ts, 2 ≤ ts.length → destringify ts = Val.vals (ts.map destringify1)) := by
  refine ⟨?_, ?_, ?_, ?_⟩
  · intro n
    have hpipe : parse_server_str [] (renderMsg gs sent)
        = gs.foldl (fun d g => dset d g.1 (destringify g.2)) [] := by
      simp only [parse_server_str]
      rw [prep_renderMsg gs sent hgs hsent hgood]
      have hnp : ∀ p ∈ gs.map groupBody, ∀ c ∈ p, c ≠ ')' := by
        intro p hp c hc
        obtain ⟨g, hgmem, rfl⟩ := List.mem_map.1 hp
        exact (groupBody_chars (hgood g hgmem) hc).2
      rw [splitParen_intercalate (gs.map groupBody) (by simpa using hgs) hnp]
      exact parse_foldl_groups gs [] hgood
    rw [hpipe, dget_foldl_dset]
    simp [dget]
  · intro t q h
    simp [destringify, destringify1, h]
  · intro t h
    simp [destringify, destringify1, h]
  · intro ts h
    cases ts with
    | nil => simp at h
    | cons t1 r1 =>
      cases r1 with
      | nil => simp at h
      | cons t2 r2 => rfl

/-- Witness for C8 on `(speedX 42.5)(track 1 2 3)(speedX 7)` with
sentinel `z`: `track` decodes to the list [1,2,3] and the duplicated
`speedX` to the scalar of its last group. -/
theorem C8_decode_wellformed_witness :
    dget (parse_server_str [] (renderMsg
        [("speedX".toList, ["42.5".toList]),
         ("track".toList, ["1".toList, "2".toList, "3".toList]),
         ("speedX".toList, ["7".toList])] 'z'))
      "track".toList = some (Val.vals [Val.num 1, Val.num 2, Val.num 3])
    ∧ dget (parse_server_str [] (renderMsg
        [("speedX".toList, ["42.5".toList]),
         ("track".toList, ["1".toList, "2".toList, "3".toList]),
         ("speedX".toList, ["7".toList])] 'z'))
      "speedX".toList = some (Val.num 7) := by
  have h := C8_decode_wellformed
    [("speedX".toList, ["42.5".toList]),
     ("track".toList, ["1".toList, "2".toList, "3".toList]),
     ("speedX".toList, ["7".toList])] 'z'
    (by decide) (by decide) (by decide)
  constructor
  · rw [h.1 ("track".toList)]
    rfl
  · rw [h.1 ("speedX".toList)]
    rfl

/-- C9 counterexample: the claim says `parse_server_str` fails with a
`ProtocolError` on a payload that is empty after trimming, or that does
not parse into well-formed groups.  The source raises nothing in either
case: an empty payload yields a record with one entry mapping the empty
field name to an empty list, and a parenthesis-free payload yields a
best-effort entry, so decoding succeeds where the claim requires
failure. -/
theorem C9_counterexample :
    parse_server_str [] [] = [([], Val.vals [])]
    ∧ parse_server_str [] ("no parens here!x".toList)
        = [("no".toList,
            Val.vals [Val.str "parens".toList, Val.str "here!".toList])] := by
  constructor
  · rfl
  · rfl

/-- C9 amended: `parse_server_str` never fails.  On an empty payload it
inserts an entry with the empty field name and an empty list value into
the dictionary, and on payloads with no group structure it likewise
inserts a best-effort entry, whatever the dictionary already holds. -/
theorem C9_decode_never_fails (d : Dict) :
    parse_server_str d [] = ([], Val.vals []) :: d
    ∧ parse_server_str d ("garbagex".toList) = ("garbage".toList, Val.vals []) :: d :=
  ⟨rfl, rfl⟩

end Snakeoil
